import Mathlib

/-!
Verification development for the tic-tac-toe game core (Board Engine and
Session Tracker) and the build configuration of this repository.

The repository ships only its build configuration as source; the game core
(Board Engine, Session Tracker) is described by the specification, so those
definitions are modelled from the spec, as their doc comments state.
-/

namespace TicTacToe

/-- Modelled from the spec: a Mark is one of the two player symbols, X or O.
The game-core source is not in the repository; this follows §3 and the
glossary of the spec. -/
inductive Mark where
  | X : Mark
  | O : Mark
deriving DecidableEq, Repr

/-- Modelled from the spec: the other mark, used when the turn flips. -/
def Mark.other : Mark → Mark
  | Mark.X => Mark.O
  | Mark.O => Mark.X

/-- Modelled from the spec: a Cell is one of three values: empty, markedX,
markedO (§3); the marked cases carry the mark. -/
inductive Cell where
  | empty : Cell
  | marked : Mark → Cell
deriving DecidableEq, Repr

/-- Modelled from the spec: a Board is an ordered, fixed-size 9-position
sequence of Cells with row-major indexing 0..8 (§3). -/
abbrev Board : Type := List Cell

/-- Modelled from the spec: game status, one of InProgress,
Won(winner, winningLine), Draw; the winning line is the triple of 3 board
positions, present only when the status is Won (§3). -/
inductive Status where
  | InProgress : Status
  | Won : Mark → Nat × Nat × Nat → Status
  | Draw : Status
deriving DecidableEq, Repr

/-- Modelled from the spec: a GameState is a Board, the current turn and the
status (§3). -/
structure GameState where
  board : Board
  currentTurn : Mark
  status : Status
deriving DecidableEq, Repr

/-- Modelled from the spec: the 8 canonical winning triples — 3 rows,
3 columns, 2 diagonals (§4.1, glossary). -/
def winningTriples : List (Nat × Nat × Nat) :=
  [(0, 1, 2), (3, 4, 5), (6, 7, 8),
   (0, 3, 6), (1, 4, 7), (2, 5, 8),
   (0, 4, 8), (2, 4, 6)]

/-- Modelled from the spec: newGame yields a fresh GameState — all 9 cells
empty, X to move, InProgress (§4.1). -/
def newGame : GameState :=
  { board := List.replicate 9 Cell.empty
    currentTurn := Mark.X
    status := Status.InProgress }

/-- Modelled from the spec: whether a triple is fully occupied by one mark on
the given board; returns that mark when it is (§4.1, step (a)). -/
def tripleWinner (b : Board) (t : Nat × Nat × Nat) : Option Mark :=
  match b[t.1]?, b[t.2.1]?, b[t.2.2]? with
  | some (Cell.marked m1), some (Cell.marked m2), some (Cell.marked m3) =>
      if m1 = m2 ∧ m2 = m3 then some m1 else none
  | _, _, _ => none

/-- Modelled from the spec: evaluate the 8 winning triples against a board,
returning the winning mark and its triple when some triple is fully occupied
by one mark (§4.1, step (a)). -/
def findWin (b : Board) : Option (Mark × (Nat × Nat × Nat)) :=
  List.findSome? (fun t => Option.map (fun m => (m, t)) (tripleWinner b t))
    winningTriples

/-- Modelled from the spec: whether every cell of the board is occupied
(§4.1, step (b)). -/
def boardFull (b : Board) : Bool :=
  List.all b (fun c => c ≠ Cell.empty)

/-- Modelled from the spec: the two error kinds of the error model (§7). -/
inductive GameError where
  | InvalidMove : GameError
  | CorruptState : GameError
deriving DecidableEq, Repr

/-- Modelled from the spec: applyMove (§4.1). Fails with InvalidMove if the
status is not InProgress, the position is outside 0..8, or the targeted cell
is already occupied. On success the cell is set to the current turn's mark;
then (a) if some triple is fully occupied by one mark the status becomes Won
with that mark and triple and the turn is unchanged, (b) else if all 9 cells
are occupied the status becomes Draw, (c) else the status stays InProgress
and the turn flips. -/
def applyMove (s : GameState) (pos : Nat) : Except GameError GameState :=
  if s.status ≠ Status.InProgress then Except.error GameError.InvalidMove
  else if pos > 8 then Except.error GameError.InvalidMove
  else
    match s.board[pos]? with
    | some Cell.empty =>
        match findWin (List.set s.board pos (Cell.marked s.currentTurn)) with
        | some (m, t) =>
            Except.ok { board := List.set s.board pos
                          (Cell.marked s.currentTurn)
                        currentTurn := s.currentTurn
                        status := Status.Won m t }
        | none =>
            if boardFull (List.set s.board pos (Cell.marked s.currentTurn))
            then
              Except.ok { board := List.set s.board pos
                            (Cell.marked s.currentTurn)
                          currentTurn := s.currentTurn
                          status := Status.Draw }
            else
              Except.ok { board := List.set s.board pos
                            (Cell.marked s.currentTurn)
                          currentTurn := s.currentTurn.other
                          status := Status.InProgress }
    | _ => Except.error GameError.InvalidMove

/-- Modelled from the spec: thread applyMove over a list of positions,
failing as soon as one move is illegal (§8, sequences of legal moves). -/
def applyMoves (s : GameState) : List Nat → Except GameError GameState
  | [] => Except.ok s
  | p :: ps =>
      match applyMove s p with
      | Except.error e => Except.error e
      | Except.ok s1 => applyMoves s1 ps

/-- Modelled from the spec: the number of occupied cells on a board (§8). -/
def countOccupied (b : Board) : Nat :=
  List.countP (fun c => c ≠ Cell.empty) b

/-- Modelled from the spec: the winning triples completed on a board, each
paired with its mark; used by the corrupt-state evaluation (§4.1, §7). -/
def completedTriples (b : Board) : List (Mark × (Nat × Nat × Nat)) :=
  List.filterMap (fun t => Option.map (fun m => (m, t)) (tripleWinner b t))
    winningTriples

/-- Modelled from the spec: the Board Engine evaluation of an
externally-constructed board (§4.1 tie-break note, §7). It reports
CorruptState when the board violates structural invariants — an invalid cell
count, or multiple winning triples simultaneously completed — rather than
silently picking a winner; otherwise it yields Won, Draw or InProgress. -/
def evaluateBoard (b : Board) : Except GameError Status :=
  if List.length b ≠ 9 then Except.error GameError.CorruptState
  else
    match completedTriples b with
    | [] => if boardFull b then Except.ok Status.Draw
            else Except.ok Status.InProgress
    | [(m, t)] => Except.ok (Status.Won m t)
    | _ => Except.error GameError.CorruptState

/-- Modelled from the spec: the result recorded for one completed game —
Won(winner) or Draw (§3, HistoryEntry). -/
inductive GameResult where
  | Won : Mark → GameResult
  | Draw : GameResult
deriving DecidableEq, Repr

/-- Modelled from the spec: a HistoryEntry is one record per completed game:
a timestamp and a result (§3). -/
structure HistoryEntry where
  timestamp : Nat
  result : GameResult
deriving DecidableEq, Repr

/-- Modelled from the spec: SessionStats holds the aggregate counts winsX,
winsO, draws (§3). -/
structure SessionStats where
  winsX : Nat
  winsO : Nat
  draws : Nat
deriving DecidableEq, Repr

/-- Modelled from the spec: a Session owns one active GameState, the ordered
append-only history log, and the derived SessionStats (§3). -/
structure Session where
  game : GameState
  history : List HistoryEntry
  stats : SessionStats
deriving DecidableEq, Repr

/-- Modelled from the spec: startSession yields a Session with a freshly
created GameState, empty history and zeroed stats (§4.2). -/
def startSession : Session :=
  { game := newGame
    history := []
    stats := { winsX := 0, winsO := 0, draws := 0 } }

/-- Modelled from the spec: increment the SessionStats counter matching a
game result (§4.2, submitMove). -/
def bumpStats (st : SessionStats) : GameResult → SessionStats
  | GameResult.Won Mark.X => { st with winsX := st.winsX + 1 }
  | GameResult.Won Mark.O => { st with winsO := st.winsO + 1 }
  | GameResult.Draw => { st with draws := st.draws + 1 }

/-- Modelled from the spec: submitMove delegates to applyMove on the active
GameState; on success it replaces the active GameState, and when the new
status is Won or Draw it atomically appends a HistoryEntry timestamped now
and increments the matching counter; it fails with applyMove's error and
leaves the session unchanged when the move is illegal (§4.2). The current
time is passed by the caller, as time is external to the core. -/
def submitMove (sess : Session) (pos : Nat) (now : Nat) :
    Except GameError Session :=
  match applyMove sess.game pos with
  | Except.error e => Except.error e
  | Except.ok g =>
      match g.status with
      | Status.Won w _ =>
          Except.ok { game := g
                      history := sess.history ++ [⟨now, GameResult.Won w⟩]
                      stats := bumpStats sess.stats (GameResult.Won w) }
      | Status.Draw =>
          Except.ok { game := g
                      history := sess.history ++ [⟨now, GameResult.Draw⟩]
                      stats := bumpStats sess.stats GameResult.Draw }
      | Status.InProgress =>
          Except.ok { game := g, history := sess.history, stats := sess.stats }

/-- Modelled from the spec: startNewGame replaces the active GameState with a
fresh one; history and stats untouched; always succeeds (§4.2). -/
def startNewGame (sess : Session) : Session :=
  { game := newGame, history := sess.history, stats := sess.stats }

/-- Modelled from the spec: resetStats clears the history log and zeroes all
SessionStats counters; it does not alter the active GameState; always
succeeds (§4.2). -/
def resetStats (sess : Session) : Session :=
  { game := sess.game
    history := []
    stats := { winsX := 0, winsO := 0, draws := 0 } }

/-- Modelled from the spec: one Session operation, as driven by the UI event
loop (§4.2, §5); a submit carries the position and the external clock. -/
inductive SessionOp where
  | submit : Nat → Nat → SessionOp
  | newG : SessionOp
  | reset : SessionOp
deriving DecidableEq, Repr

/-- Modelled from the spec: run one Session operation; an illegal submitMove
leaves the session unchanged (§4.2, §7). -/
def runOp (sess : Session) : SessionOp → Session
  | SessionOp.submit pos now =>
      match submitMove sess pos now with
      | Except.ok s1 => s1
      | Except.error _ => sess
  | SessionOp.newG => startNewGame sess
  | SessionOp.reset => resetStats sess

/-- Modelled from the spec: run a sequence of Session operations (§4.2). -/
def runOps (sess : Session) : List SessionOp → Session
  | [] => sess
  | op :: ops => runOps (runOp sess op) ops

/-- Modelled from the spec: the stats derivable from a history log — each
counter is the count of matching entries (§3, SessionStats invariant). -/
def statsOfHistory (h : List HistoryEntry) : SessionStats :=
  { winsX := List.countP (fun e => e.result = GameResult.Won Mark.X) h
    winsO := List.countP (fun e => e.result = GameResult.Won Mark.O) h
    draws := List.countP (fun e => e.result = GameResult.Draw) h }

/-- A concrete mid-game state: X at 0 and 1, O at 4 and 5, X to move — the
spec's win scenario one move before the winning move at position 2. -/
def demoPreWinState : GameState :=
  { board := [Cell.marked Mark.X, Cell.marked Mark.X, Cell.empty,
              Cell.empty, Cell.marked Mark.O, Cell.marked Mark.O,
              Cell.empty, Cell.empty, Cell.empty]
    currentTurn := Mark.X
    status := Status.InProgress }

/-- The state after X completes the top row from `demoPreWinState`. -/
def demoWonState : GameState :=
  { board := [Cell.marked Mark.X, Cell.marked Mark.X, Cell.marked Mark.X,
              Cell.empty, Cell.marked Mark.O, Cell.marked Mark.O,
              Cell.empty, Cell.empty, Cell.empty]
    currentTurn := Mark.X
    status := Status.Won Mark.X (0, 1, 2) }

/-- A concrete state one move before the spec's draw scenario completes:
X at 0, 1, 5, 6; O at 2, 3, 4, 7; only cell 8 free; X to move. -/
def demoPreDrawState : GameState :=
  { board := [Cell.marked Mark.X, Cell.marked Mark.X, Cell.marked Mark.O,
              Cell.marked Mark.O, Cell.marked Mark.O, Cell.marked Mark.X,
              Cell.marked Mark.X, Cell.marked Mark.O, Cell.empty]
    currentTurn := Mark.X
    status := Status.InProgress }

/-- The drawn state after X fills cell 8 from `demoPreDrawState`. -/
def demoDrawState : GameState :=
  { board := [Cell.marked Mark.X, Cell.marked Mark.X, Cell.marked Mark.O,
              Cell.marked Mark.O, Cell.marked Mark.O, Cell.marked Mark.X,
              Cell.marked Mark.X, Cell.marked Mark.O, Cell.marked Mark.X]
    currentTurn := Mark.X
    status := Status.Draw }

/-- A malformed externally-constructed board with two completed winning
triples, both rows of X. -/
def demoCorruptBoard : Board :=
  [Cell.marked Mark.X, Cell.marked Mark.X, Cell.marked Mark.X,
   Cell.marked Mark.X, Cell.marked Mark.X, Cell.marked Mark.X,
   Cell.empty, Cell.empty, Cell.empty]

end TicTacToe

namespace ViteConfig

/-- The Rollup output options of the build configuration: `manualChunks`
is set to `undefined` in the source, modelled as `none`
(src/vite.config.ts lines 10-12). -/
structure RollupOutput where
  manualChunks : Option String
deriving DecidableEq, Repr

/-- The Rollup options of the build configuration
(src/vite.config.ts lines 9-13). -/
structure RollupOptions where
  output : RollupOutput
deriving DecidableEq, Repr

/-- The `build` section of the configuration
(src/vite.config.ts lines 6-15). -/
structure BuildOptions where
  minify : String
  rollupOptions : RollupOptions
  chunkSizeWarningLimit : Nat
deriving DecidableEq, Repr

/-- A configured plugin; the source registers exactly `react()`
(src/vite.config.ts line 5). -/
inductive Plugin where
  | react : Plugin
deriving DecidableEq, Repr

/-- The shape of the configuration object passed to `defineConfig`
(src/vite.config.ts lines 4-17). -/
structure Config where
  plugins : List Plugin
  build : BuildOptions
deriving DecidableEq, Repr

/-- `defineConfig` is Vite's identity helper for type inference; the module
default-exports its result (src/vite.config.ts line 4). -/
def defineConfig (c : Config) : Config := c

/-- The default-exported build configuration, translated field by field from
src/vite.config.ts lines 4-17. -/
def defaultExport : Config :=
  defineConfig
    { plugins := [Plugin.react]
      build :=
        { minify := "esbuild"
          rollupOptions := { output := { manualChunks := none } }
          chunkSizeWarningLimit := 1000 } }

end ViteConfig

namespace TicTacToe

theorem tripleWinner_eq_some {b : Board} {t : Nat × Nat × Nat} {m : Mark}
    (h : tripleWinner b t = some m) :
    b[t.1]? = some (Cell.marked m) ∧ b[t.2.1]? = some (Cell.marked m) ∧
      b[t.2.2]? = some (Cell.marked m) := by
  unfold tripleWinner at h
  split at h
  case _ m1 m2 m3 h1 h2 h3 =>
    split at h
    case isTrue hc =>
      cases h
      exact ⟨h1, by rw [h2, hc.1], by rw [h3, hc.1, hc.2]⟩
    case isFalse => exact Option.noConfusion h
  case _ => exact Option.noConfusion h

theorem findWin_eq_some {b : Board} {m : Mark} {t : Nat × Nat × Nat}
    (h : findWin b = some (m, t)) :
    t ∈ winningTriples ∧ tripleWinner b t = some m := by
  unfold findWin at h
  obtain ⟨a, ha, hfa⟩ := List.exists_of_findSome?_eq_some h
  cases hw : tripleWinner b a with
  | none => rw [hw] at hfa; exact Option.noConfusion hfa
  | some m1 =>
    rw [hw] at hfa
    simp only [Option.map_some'] at hfa
    cases hfa
    exact ⟨ha, hw⟩

theorem applyMove_ok_cases {s s1 : GameState} {pos : Nat}
    (h : applyMove s pos = Except.ok s1) :
    s.status = Status.InProgress ∧ pos ≤ 8 ∧
      s.board[pos]? = some Cell.empty ∧
      s1.board = List.set s.board pos (Cell.marked s.currentTurn) ∧
      ((∃ m t, findWin s1.board = some (m, t) ∧
          s1 = ⟨s1.board, s.currentTurn, Status.Won m t⟩) ∨
       (findWin s1.board = none ∧ boardFull s1.board = true ∧
          s1 = ⟨s1.board, s.currentTurn, Status.Draw⟩) ∨
       (findWin s1.board = none ∧ boardFull s1.board = false ∧
          s1 = ⟨s1.board, s.currentTurn.other, Status.InProgress⟩)) := by
  unfold applyMove at h
  split at h
  case isTrue => exact Except.noConfusion h
  case isFalse hst =>
    split at h
    case isTrue => exact Except.noConfusion h
    case isFalse hpos =>
      split at h
      case _ hcell =>
        split at h
        case _ m t hwin =>
          cases h
          refine ⟨not_not.mp hst, by omega, hcell, rfl, Or.inl ⟨m, t, hwin, rfl⟩⟩
        case _ hwin =>
          split at h
          case isTrue hfull =>
            cases h
            exact ⟨not_not.mp hst, by omega, hcell, rfl,
              Or.inr (Or.inl ⟨hwin, hfull, rfl⟩)⟩
          case isFalse hfull =>
            cases h
            exact ⟨not_not.mp hst, by omega, hcell, rfl,
              Or.inr (Or.inr ⟨hwin, Bool.not_eq_true _ ▸ hfull, rfl⟩)⟩
      case _ => exact Except.noConfusion h

/-- C1: applyMove fails with InvalidMove exactly when the position is outside
0..8, the targeted cell is already occupied, or the status is not InProgress;
in particular every move on a Won or Draw state fails with InvalidMove. -/
theorem applyMove_invalidMove_iff (s : GameState) (pos : Nat)
    (hlen : s.board.length = 9) :
    applyMove s pos = Except.error GameError.InvalidMove ↔
      (¬ pos ≤ 8 ∨ (∃ c, s.board[pos]? = some c ∧ c ≠ Cell.empty) ∨
        s.status ≠ Status.InProgress) := by
  constructor
  · intro h
    unfold applyMove at h
    split at h
    case isTrue hst => exact Or.inr (Or.inr hst)
    case isFalse hst =>
      split at h
      case isTrue hpos => exact Or.inl (by omega)
      case isFalse hpos =>
        split at h
        case _ hcell =>
          exfalso
          split at h
          case _ => exact Except.noConfusion h
          case _ =>
            split at h
            case isTrue => exact Except.noConfusion h
            case isFalse => exact Except.noConfusion h
        case _ hcell =>
          have hlt : pos < s.board.length := by omega
          have hsome : s.board[pos]? = some s.board[pos] :=
            List.getElem?_eq_getElem hlt
          refine Or.inr (Or.inl ⟨s.board[pos], hsome, ?_⟩)
          intro hemp
          exact hcell (hemp ▸ hsome)
  · intro h
    unfold applyMove
    split
    case isTrue => rfl
    case isFalse hst =>
      split
      case isTrue => rfl
      case isFalse hpos =>
        split
        case _ hcell =>
          exfalso
          rcases h with h | h | h
          · omega
          · obtain ⟨c, hc, hne⟩ := h
            rw [hcell] at hc
            exact hne (Option.some.inj hc).symm
          · exact h (not_not.mp hst)
        case _ => rfl

theorem applyMove_invalidMove_iff_demo :
    demoWonState.board.length = 9 ∧
    (applyMove demoWonState 4 = Except.error GameError.InvalidMove ↔
      (¬ (4 : Nat) ≤ 8 ∨
        (∃ c, demoWonState.board[(4 : Nat)]? = some c ∧ c ≠ Cell.empty) ∨
        demoWonState.status ≠ Status.InProgress)) :=
  ⟨by decide, applyMove_invalidMove_iff demoWonState 4 (by decide)⟩

/-- C2: a state reaching Won through applyMove has its winningLine among the
8 canonical triples, all three of that line's cells hold the winner's mark,
and the winning move leaves currentTurn unchanged. -/
theorem applyMove_won_line (s s1 : GameState) (pos : Nat) (w : Mark)
    (t : Nat × Nat × Nat) (h : applyMove s pos = Except.ok s1)
    (hw : s1.status = Status.Won w t) :
    t ∈ winningTriples ∧
      s1.board[t.1]? = some (Cell.marked w) ∧
      s1.board[t.2.1]? = some (Cell.marked w) ∧
      s1.board[t.2.2]? = some (Cell.marked w) ∧
      s1.currentTurn = s.currentTurn := by
  obtain ⟨-, -, -, -, hcases⟩ := applyMove_ok_cases h
  rcases hcases with ⟨m, t1, hwin, hs1⟩ | ⟨-, -, hs1⟩ | ⟨-, -, hs1⟩
  · have hst : s1.status = Status.Won m t1 := by rw [hs1]
    rw [hw] at hst
    obtain ⟨hm, ht⟩ : w = m ∧ t = t1 := by
      cases hst; exact ⟨rfl, rfl⟩
    subst hm; subst ht
    obtain ⟨hmem, htw⟩ := findWin_eq_some hwin
    obtain ⟨h1, h2, h3⟩ := tripleWinner_eq_some htw
    exact ⟨hmem, h1, h2, h3, by rw [hs1]⟩
  · rw [hs1] at hw; exact Status.noConfusion hw
  · rw [hs1] at hw; exact Status.noConfusion hw

theorem applyMove_won_line_demo :
    applyMove demoPreWinState 2 = Except.ok demoWonState ∧
    ((0, 1, 2) ∈ winningTriples ∧
      demoWonState.board[(0 : Nat)]? = some (Cell.marked Mark.X) ∧
      demoWonState.board[(1 : Nat)]? = some (Cell.marked Mark.X) ∧
      demoWonState.board[(2 : Nat)]? = some (Cell.marked Mark.X) ∧
      demoWonState.currentTurn = demoPreWinState.currentTurn) :=
  ⟨rfl, applyMove_won_line demoPreWinState demoWonState 2 Mark.X (0, 1, 2)
    rfl rfl⟩

end TicTacToe

namespace TicTacToe

theorem countP_set_succ {α : Type} (p : α → Bool) (b : List α) :
    ∀ (pos : Nat) (a x : α), b[pos]? = some a → p a = false → p x = true →
      List.countP p (List.set b pos x) = List.countP p b + 1 := by
  induction b with
  | nil => intro pos a x h _ _; simp at h
  | cons c cs ih =>
    intro pos a x h hpa hpx
    cases pos with
    | zero =>
      simp only [List.getElem?_cons_zero, Option.some.injEq] at h
      subst h
      simp [List.set, List.countP_cons, hpa, hpx]
    | succ n =>
      simp only [List.getElem?_cons_succ] at h
      simp only [List.set, List.countP_cons]
      rw [ih n a x h hpa hpx]
      omega

theorem applyMove_step {s s1 : GameState} {pos : Nat}
    (h : applyMove s pos = Except.ok s1) :
    countOccupied s1.board = countOccupied s.board + 1 ∧
      s1.board.length = s.board.length ∧
      s.status = Status.InProgress ∧
      (s1.status = Status.InProgress →
        s1.currentTurn = s.currentTurn.other) := by
  obtain ⟨hst, -, hcell, hboard, hcases⟩ := applyMove_ok_cases h
  have hcount : countOccupied s1.board = countOccupied s.board + 1 := by
    rw [hboard]
    exact countP_set_succ _ s.board pos Cell.empty
      (Cell.marked s.currentTurn) hcell (by simp) (by simp)
  have hlen : s1.board.length = s.board.length := by
    rw [hboard, List.length_set]
  refine ⟨hcount, hlen, hst, ?_⟩
  intro hip
  rcases hcases with ⟨m, t, -, hs1⟩ | ⟨-, -, hs1⟩ | ⟨-, -, hs1⟩
  · rw [hs1] at hip; exact Status.noConfusion hip
  · rw [hs1] at hip; exact Status.noConfusion hip
  · rw [hs1]

theorem applyMoves_inv (ms : List Nat) :
    ∀ (s s1 : GameState) (n : Nat), applyMoves s ms = Except.ok s1 →
      countOccupied s.board = n →
      (s.status = Status.InProgress →
        s.currentTurn = (if n % 2 = 0 then Mark.X else Mark.O)) →
      countOccupied s1.board = n + ms.length ∧
      (s1.status = Status.InProgress →
        s1.currentTurn =
          (if (n + ms.length) % 2 = 0 then Mark.X else Mark.O)) := by
  induction ms with
  | nil =>
    intro s s1 n h hc ht
    cases h
    exact ⟨by simpa using hc, by simpa using ht⟩
  | cons p ps ih =>
    intro s s1 n h hc ht
    unfold applyMoves at h
    split at h
    case _ => exact Except.noConfusion h
    case _ s2 hs2 =>
      obtain ⟨hcount, -, hst, hturn⟩ := applyMove_step hs2
      have hturn2 : s2.status = Status.InProgress →
          s2.currentTurn = (if (n + 1) % 2 = 0 then Mark.X else Mark.O) := by
        intro hip
        rw [hturn hip, ht hst]
        rcases Nat.even_or_odd n with he | ho
        · have h0 : n % 2 = 0 := Nat.even_iff.mp he
          have h1 : (n + 1) % 2 = 1 := by omega
          simp [h0, h1, Mark.other]
        · have h0 : n % 2 = 1 := Nat.odd_iff.mp ho
          have h1 : (n + 1) % 2 = 0 := by omega
          simp [h0, h1, Mark.other]
      have := ih s2 s1 (n + 1) h (by rw [hcount, hc]) hturn2
      refine ⟨?_, ?_⟩
      · rw [this.1]; simp [List.length_cons]; omega
      · intro hip
        have := this.2 hip
        rw [this]
        congr 1
        simp [List.length_cons]
        omega

/-- C3: along any sequence of legal moves from newGame, the number of
occupied cells equals the number of moves applied, and while the game is in
progress currentTurn strictly alternates starting with X — it is X exactly
after an even number of moves. -/
theorem applyMoves_count_alternation (ms : List Nat) (s : GameState)
    (h : applyMoves newGame ms = Except.ok s) :
    countOccupied s.board = ms.length ∧
    (s.status = Status.InProgress →
      s.currentTurn = (if ms.length % 2 = 0 then Mark.X else Mark.O)) := by
  have := applyMoves_inv ms newGame s 0 h (by decide) (by intro _; decide)
  simpa using this

theorem applyMoves_count_alternation_demo :
    applyMoves newGame [0, 4, 1] = Except.ok
      { board := [Cell.marked Mark.X, Cell.marked Mark.X, Cell.empty,
                  Cell.empty, Cell.marked Mark.O, Cell.empty,
                  Cell.empty, Cell.empty, Cell.empty]
        currentTurn := Mark.O
        status := Status.InProgress } ∧
    countOccupied [Cell.marked Mark.X, Cell.marked Mark.X, Cell.empty,
        Cell.empty, Cell.marked Mark.O, Cell.empty,
        Cell.empty, Cell.empty, Cell.empty] = 3 := by
  refine ⟨rfl, ?_⟩
  have := applyMoves_count_alternation [0, 4, 1]
    { board := [Cell.marked Mark.X, Cell.marked Mark.X, Cell.empty,
                Cell.empty, Cell.marked Mark.O, Cell.empty,
                Cell.empty, Cell.empty, Cell.empty]
      currentTurn := Mark.O
      status := Status.InProgress } rfl
  simpa using this.1

end TicTacToe

namespace TicTacToe

/-- C5: for a state reached by applyMove, the status is Draw exactly when all
9 cells of the updated board are occupied and no winning triple is uniformly
marked. -/
theorem applyMove_draw_iff (s s1 : GameState) (pos : Nat)
    (hlen : s.board.length = 9) (h : applyMove s pos = Except.ok s1) :
    s1.status = Status.Draw ↔
      (countOccupied s1.board = 9 ∧
        ∀ t ∈ winningTriples, tripleWinner s1.board t = none) := by
  obtain ⟨-, -, -, hboard, hcases⟩ := applyMove_ok_cases h
  have hlen1 : s1.board.length = 9 := by rw [hboard, List.length_set, hlen]
  constructor
  · intro hd
    rcases hcases with ⟨m, t, hwin, hs1⟩ | ⟨hwin, hfull, hs1⟩ |
      ⟨hwin, hfull, hs1⟩
    · rw [hs1] at hd; exact Status.noConfusion hd
    · refine ⟨?_, ?_⟩
      · have hall := List.all_eq_true.mp hfull
        have hc := List.countP_eq_length.mpr hall
        rw [countOccupied, hc, hlen1]
      · intro t ht
        unfold findWin at hwin
        have := List.findSome?_eq_none_iff.mp hwin t ht
        exact Option.map_eq_none'.mp this
    · rw [hs1] at hd; exact Status.noConfusion hd
  · rintro ⟨hcnt, htr⟩
    rcases hcases with ⟨m, t, hwin, hs1⟩ | ⟨hwin, hfull, hs1⟩ |
      ⟨hwin, hfull, hs1⟩
    · exfalso
      obtain ⟨hmem, htw⟩ := findWin_eq_some hwin
      rw [htr t hmem] at htw
      exact Option.noConfusion htw
    · rw [hs1]
    · exfalso
      have hall : ∀ c ∈ s1.board, (fun c => c ≠ Cell.empty : Cell → Bool) c
          := by
        apply List.countP_eq_length.mp
        rw [← countOccupied, hcnt, hlen1]
      have : boardFull s1.board = true := List.all_eq_true.mpr hall
      rw [this] at hfull
      exact Bool.noConfusion hfull

theorem applyMove_draw_iff_demo :
    demoPreDrawState.board.length = 9 ∧
    applyMove demoPreDrawState 8 = Except.ok demoDrawState ∧
    (demoDrawState.status = Status.Draw ↔
      (countOccupied demoDrawState.board = 9 ∧
        ∀ t ∈ winningTriples, tripleWinner demoDrawState.board t = none)) :=
  ⟨by decide, rfl, applyMove_draw_iff demoPreDrawState demoDrawState 8
    (by decide) rfl⟩

/-- C9: the Board Engine evaluation of an externally-constructed board that
violates the structural invariants — a cell count other than 9, or at least
two simultaneously completed winning triples — reports CorruptState. -/
theorem evaluateBoard_corruptState (b : Board)
    (h : b.length ≠ 9 ∨ 2 ≤ (completedTriples b).length) :
    evaluateBoard b = Except.error GameError.CorruptState := by
  unfold evaluateBoard
  split
  case isTrue => rfl
  case isFalse hlen =>
    have h2 : 2 ≤ (completedTriples b).length := by
      rcases h with h | h
      · exact absurd h hlen
      · exact h
    split
    case _ hnil => rw [hnil] at h2; simp at h2
    case _ m t hone => rw [hone] at h2; simp at h2
    case _ => rfl

theorem evaluateBoard_corruptState_demo :
    2 ≤ (completedTriples demoCorruptBoard).length ∧
    evaluateBoard demoCorruptBoard = Except.error GameError.CorruptState :=
  ⟨by decide, evaluateBoard_corruptState demoCorruptBoard
    (Or.inr (by decide))⟩

end TicTacToe

namespace TicTacToe

theorem statsOfHistory_winsSum (h : List HistoryEntry) :
    (statsOfHistory h).winsX + (statsOfHistory h).winsO +
      (statsOfHistory h).draws = h.length := by
  induction h with
  | nil => rfl
  | cons e es ih =>
    rcases e with ⟨ts, r⟩
    simp only [statsOfHistory, List.countP_cons, List.length_cons] at *
    cases r with
    | Won w => cases w <;> simp <;> omega
    | Draw => simp; omega

theorem statsOfHistory_append (h : List HistoryEntry) (e : HistoryEntry) :
    statsOfHistory (h ++ [e]) = bumpStats (statsOfHistory h) e.result := by
  rcases e with ⟨ts, r⟩
  cases r with
  | Won w =>
    cases w <;>
      simp [statsOfHistory, bumpStats, List.countP_append, List.countP_cons]
  | Draw =>
    simp [statsOfHistory, bumpStats, List.countP_append, List.countP_cons]

theorem runOp_stats_inv (sess : Session) (op : SessionOp)
    (hinv : sess.stats = statsOfHistory sess.history) :
    (runOp sess op).stats = statsOfHistory (runOp sess op).history := by
  cases op with
  | submit pos now =>
    cases hsm : submitMove sess pos now with
    | error e =>
      have hfix : runOp sess (SessionOp.submit pos now) = sess := by
        simp only [runOp]; rw [hsm]
      rw [hfix]; exact hinv
    | ok s1 =>
      have hfix : runOp sess (SessionOp.submit pos now) = s1 := by
        simp only [runOp]; rw [hsm]
      rw [hfix]
      unfold submitMove at hsm
      split at hsm
      case _ => exact Except.noConfusion hsm
      case _ g hap =>
        split at hsm
        case _ w t hstat =>
          cases hsm
          show bumpStats sess.stats (GameResult.Won w) =
            statsOfHistory (sess.history ++ [⟨now, GameResult.Won w⟩])
          rw [statsOfHistory_append, hinv]
        case _ hstat =>
          cases hsm
          show bumpStats sess.stats GameResult.Draw =
            statsOfHistory (sess.history ++ [⟨now, GameResult.Draw⟩])
          rw [statsOfHistory_append, hinv]
        case _ hstat =>
          cases hsm
          exact hinv
  | newG => exact hinv
  | reset => rfl

theorem runOps_stats_inv (ops : List SessionOp) :
    ∀ sess : Session, sess.stats = statsOfHistory sess.history →
      (runOps sess ops).stats = statsOfHistory (runOps sess ops).history := by
  induction ops with
  | nil => intro sess h; exact h
  | cons op ops ih =>
    intro sess h
    exact ih (runOp sess op) (runOp_stats_inv sess op h)

/-- C4: after any sequence of Session operations from startSession, the
SessionStats equal the aggregation of the history log — each counter counts
its matching entries — and the three counters sum to the history length. -/
theorem session_stats_aggregation (ops : List SessionOp) :
    (runOps startSession ops).stats =
      statsOfHistory (runOps startSession ops).history ∧
    (runOps startSession ops).stats.winsX +
      (runOps startSession ops).stats.winsO +
      (runOps startSession ops).stats.draws =
      (runOps startSession ops).history.length := by
  have h1 := runOps_stats_inv ops startSession rfl
  refine ⟨h1, ?_⟩
  rw [h1]
  exact statsOfHistory_winsSum _

/-- C6: when the underlying applyMove is illegal, submitMove fails with the
same error and the session — active GameState, history and stats — is left
completely unchanged. -/
theorem submitMove_error_frame (sess : Session) (pos now : Nat)
    (e : GameError) (h : applyMove sess.game pos = Except.error e) :
    submitMove sess pos now = Except.error e ∧
    runOp sess (SessionOp.submit pos now) = sess := by
  have hs : submitMove sess pos now = Except.error e := by
    unfold submitMove
    rw [h]
  refine ⟨hs, ?_⟩
  simp only [runOp]
  rw [hs]

theorem submitMove_error_frame_demo :
    submitMove startSession 9 0 = Except.error GameError.InvalidMove ∧
    runOp startSession (SessionOp.submit 9 0) = startSession :=
  submitMove_error_frame startSession 9 0 GameError.InvalidMove rfl

/-- C7: startNewGame (a total operation) replaces the active GameState with
newGame's result — empty board, X to move, InProgress — and leaves the
history log and the SessionStats unchanged. -/
theorem startNewGame_fresh (sess : Session) :
    (startNewGame sess).game = newGame ∧
    (startNewGame sess).history = sess.history ∧
    (startNewGame sess).stats = sess.stats ∧
    newGame.board = List.replicate 9 Cell.empty ∧
    newGame.currentTurn = Mark.X ∧
    newGame.status = Status.InProgress :=
  ⟨rfl, rfl, rfl, rfl, rfl, rfl⟩

/-- C8: resetStats (a total operation) empties the history log, zeroes all
SessionStats counters, and leaves the active GameState unchanged. -/
theorem resetStats_frame (sess : Session) :
    (resetStats sess).history = [] ∧
    (resetStats sess).stats = { winsX := 0, winsO := 0, draws := 0 } ∧
    (resetStats sess).game = sess.game :=
  ⟨rfl, rfl, rfl⟩

end TicTacToe

namespace ViteConfig

/-- C10: the default-exported build configuration is a constant —
defineConfig is the identity, so every evaluation yields the same object —
with minify esbuild, manualChunks undefined, chunk-size warning limit 1000,
and exactly the React plugin. -/
theorem defaultExport_constant :
    defaultExport.build.minify = "esbuild" ∧
    defaultExport.build.rollupOptions.output.manualChunks = none ∧
    defaultExport.build.chunkSizeWarningLimit = 1000 ∧
    defaultExport.plugins = [Plugin.react] ∧
    (∀ c : Config, defineConfig c = c) :=
  ⟨rfl, rfl, rfl, rfl, fun _ => rfl⟩

end ViteConfig
